import Mathlib

/-!
Verification of `gdrive_upload.py` and `gdrive_get_credentials.py`.

The scripts are straight-line CLI glue: parse arguments, authorize with one
of two credential sources, optionally resolve a destination folder by name,
and upload one file.  The shallow embedding below models each Python
function as a Lean function; the external world (file loads, the Drive
listing endpoint) is a record of functions supplied as a parameter, and the
remote/side-effecting calls a run performs are collected in an explicit
event trace.  Python truthiness of optional string arguments (argparse
yields `None` for an absent flag; `None` and the empty string are both
falsy) is modelled by `truthy` on `Option String`.
-/

namespace GDrive

/-- Python truthiness of an optional CLI string: `None` (here `none`) and
the empty string are falsy, every other string is truthy. -/
def truthy : Option String → Bool
  | none => false
  | some s => !s.isEmpty

/-- Parsed command-line arguments of the Uploader, as produced by argparse
(`--file` is required by argparse itself; each optional string flag is
`none` when absent). -/
structure Args where
  credentials : Option String
  service_account_key : Option String
  file : String
  name : Option String
  directory_name : Option String
  directory_id : Option String
deriving Repr, DecidableEq

/-- The explicit validation in `parse_args` (gdrive_upload.py:55-57): after
argparse succeeds, raise unless at least one of `--credentials` and
`--service-account-key` was supplied. -/
def parse_args (args : Args) : Except String Args :=
  if !truthy args.credentials && !truthy args.service_account_key then
    Except.error "Specify at least one way to authorize(--credentials or --service-account-key"
  else
    Except.ok args

/-- An opaque loaded OAuth credential object (contents irrelevant to the
scripts beyond presence and expiry). -/
structure Cred where
  token : String
deriving Repr, DecidableEq

/-- The observable state of a `GoogleAuth` object right after
`LoadCredentialsFile`: the loaded credentials (`None` when the file could
not be loaded) and the expiry flag `access_token_expired`. -/
structure GAuthLoad where
  credentials : Option Cred
  access_token_expired : Bool
deriving Repr, DecidableEq

/-- A child entry returned by the Drive listing call; the scripts use only
its `title` and `id` fields. -/
structure DriveFile where
  title : String
  id : String
deriving Repr, DecidableEq

/-- A remote HTTP error from the listing call, reduced to the message
string that the code extracts from the error content via ast.literal_eval. -/
structure HttpError where
  message : String
deriving Repr, DecidableEq

/-- The remote file object created by `upload` (gdrive_upload.py:118-130):
the metadata dictionary passed to `CreateFile` (optional `title`, optional
`parents` list), the local content file, and the `supportsTeamDrives` flag
of the `Upload` call. -/
structure UploadCall where
  title : Option String
  parents : Option (List (String × String))
  content_file : String
  supportsTeamDrives : Bool
deriving Repr, DecidableEq

/-- Side-effecting calls a run performs, in order.  `loadCredFile` and
`refresh`/`authorize` belong to the credential-bundle auth path,
`svcAuthorize` to the service-account path, `listing` is one Drive listing
query (its query string recorded), and `uploadFile` is the
CreateFile/SetContentFile/Upload sequence, recorded as one event. -/
inductive Event where
  | loadCredFile (path : String)
  | refresh
  | authorize
  | svcAuthorize (path : String)
  | listing (query : String)
  | uploadFile (call : UploadCall)
deriving Repr, DecidableEq

/-- The environment a run interacts with: what `LoadCredentialsFile`
yields for a given path, what credential a service-account key file
yields, and what the Drive listing endpoint answers for a query string. -/
structure World where
  load : String → GAuthLoad
  svcCred : String → Cred
  listing : String → Except HttpError (List DriveFile)

/-- `auth_with_credentials` (gdrive_upload.py:60-77): load the bundle;
raise if no credentials were loaded; refresh when the token is expired,
otherwise authorize directly; return the session.  The first component is
the trace of calls performed. -/
def auth_with_credentials (load : String → GAuthLoad) (credentials_file : String) :
    List Event × Except String GAuthLoad :=
  let gauth := load credentials_file
  match gauth.credentials with
  | none =>
      ([Event.loadCredFile credentials_file],
       Except.error ("Error while loading " ++ credentials_file))
  | some _ =>
      if gauth.access_token_expired then
        ([Event.loadCredFile credentials_file, Event.refresh], Except.ok gauth)
      else
        ([Event.loadCredFile credentials_file, Event.authorize], Except.ok gauth)

/-- `auth_with_service_account_key` (gdrive_upload.py:80-90): build
credentials from the key file scoped to full drive access and authorize;
recorded as one `svcAuthorize` event. -/
def auth_with_service_account_key (svcCred : String → Cred) (service_account_key : String) :
    List Event × GAuthLoad :=
  ([Event.svcAuthorize service_account_key],
   { credentials := some (svcCred service_account_key), access_token_expired := false })

/-- The literal listing query string built at gdrive_upload.py:99: the
parent id wrapped in single quotes (the `\x27` escapes), followed by the
text ` in parents and trashed=false`. -/
def listQuery (parent_folder_id : String) : String :=
  "\x27" ++ parent_folder_id ++ "\x27 in parents and trashed=false"

/-- The loop at gdrive_upload.py:112-115: return the id of the first entry
whose title equals the target name; falling off the loop returns `None`. -/
def findFolder : List DriveFile → String → Option String
  | [], _ => none
  | f :: rest, folder_name =>
      if f.title == folder_name then some f.id else findFolder rest folder_name

/-- How a `get_folder_id_by_name` call ends: a returned value (`none` when
the Python function returns `None`), a `print` followed by `exit(code)`,
or the original error re-raised by the bare `raise`. -/
inductive LookupOutcome where
  | ok (folderId : Option String)
  | exitProc (code : Nat) (printed : String)
  | reraise (err : HttpError)
deriving Repr, DecidableEq

/-- Result of a `get_folder_id_by_name` call: the listing query strings it
issued, and how it ended. -/
structure LookupResult where
  queries : List String
  outcome : LookupOutcome
deriving Repr, DecidableEq

/-- `get_folder_id_by_name` (gdrive_upload.py:93-116): issue one listing
query for the children of `parent_folder_id`; on an HttpError whose parsed
message is exactly `File not found: `, print the message followed by the
folder name and `exit(1)`; on any other HttpError re-raise it; on success
scan the list for the first exact title match. -/
def get_folder_id_by_name (listing : String → Except HttpError (List DriveFile))
    (parent_folder_id folder_name : String) : LookupResult :=
  let q := listQuery parent_folder_id
  { queries := [q]
    outcome :=
      match listing q with
      | Except.error err =>
          if err.message == "File not found: " then
            LookupOutcome.exitProc 1 (err.message ++ folder_name)
          else
            LookupOutcome.reraise err
      | Except.ok file_list => LookupOutcome.ok (findFolder file_list folder_name) }

/-- `upload` (gdrive_upload.py:118-130): the metadata dict gets a `title`
entry only when `uploaded_file_name` is truthy and a single-element
`parents` entry (kind `drive#fileLink`, the given id) only when
`parent_folder_id` is truthy; the upload always passes
`supportsTeamDrives: True`.  Both optional parameters are Python strings
or `None` at the call sites (defaults are the empty string). -/
def upload (file_to_upload : String) (parent_folder_id uploaded_file_name : Option String) :
    UploadCall :=
  { title := if truthy uploaded_file_name then uploaded_file_name else none
    parents :=
      if truthy parent_folder_id then
        some [("drive#fileLink", parent_folder_id.getD "")]
      else
        none
    content_file := file_to_upload
    supportsTeamDrives := true }

/-- The auth selection in `main` (gdrive_upload.py:140-145): the
`if args.credentials / elif args.service_account_key / else raise`
ladder. -/
inductive AuthChoice where
  | credPath (path : String)
  | svcPath (path : String)
  | unreachable
deriving Repr, DecidableEq

/-- Which branch of the auth ladder a parsed invocation takes. -/
def authChoice (args : Args) : AuthChoice :=
  if truthy args.credentials then AuthChoice.credPath (args.credentials.getD "")
  else if truthy args.service_account_key then
    AuthChoice.svcPath (args.service_account_key.getD "")
  else AuthChoice.unreachable

/-- How a whole Uploader run ends: normal completion of the upload, an
uncaught raised exception (its message), an explicit `exit(code)` after a
`print`, or a re-raised HttpError. -/
inductive MainOutcome where
  | ok (u : UploadCall)
  | error (msg : String)
  | exited (code : Nat) (printed : String)
  | reraise (err : HttpError)
deriving Repr, DecidableEq

/-- A completed run: the ordered event trace and the final outcome. -/
structure MainResult where
  events : List Event
  outcome : MainOutcome
deriving Repr, DecidableEq

/-- The folder-resolution and upload part of `main`
(gdrive_upload.py:148-156), entered once authorization succeeded:
`parent_folder_id` starts as the empty string, is replaced by
`--directory-id` when that is truthy, else by the by-name lookup under
`root` when `--directory-name` is truthy (raising when the lookup result
is falsy); then `upload` runs. -/
def afterAuth (w : World) (args : Args) (evs : List Event) : MainResult :=
  if truthy args.directory_id then
    let u := upload args.file args.directory_id args.name
    { events := evs ++ [Event.uploadFile u], outcome := MainOutcome.ok u }
  else if truthy args.directory_name then
    let dn := args.directory_name.getD ""
    let lr := get_folder_id_by_name w.listing "root" dn
    let evs2 := evs ++ lr.queries.map Event.listing
    match lr.outcome with
    | LookupOutcome.exitProc c printed =>
        { events := evs2, outcome := MainOutcome.exited c printed }
    | LookupOutcome.reraise err =>
        { events := evs2, outcome := MainOutcome.reraise err }
    | LookupOutcome.ok r =>
        if truthy r then
          let u := upload args.file r args.name
          { events := evs2 ++ [Event.uploadFile u], outcome := MainOutcome.ok u }
        else
          { events := evs2,
            outcome := MainOutcome.error ("Cannot find parent directory " ++ dn) }
  else
    let u := upload args.file (some "") args.name
    { events := evs ++ [Event.uploadFile u], outcome := MainOutcome.ok u }

/-- The auth ladder of `main` (gdrive_upload.py:139-145) as executed: the
events it performs and either the authorized session or the raised
exception message. -/
def mainAuthStep (w : World) (args : Args) : List Event × Except String GAuthLoad :=
  match authChoice args with
  | AuthChoice.credPath cf => auth_with_credentials w.load cf
  | AuthChoice.svcPath kf =>
      let r := auth_with_service_account_key w.svcCred kf
      (r.1, Except.ok r.2)
  | AuthChoice.unreachable =>
      ([], Except.error
        "Actually we cannot get here, cause we are filtering this case on parse_args()")

/-- `main` (gdrive_upload.py:133-156): parse and validate arguments,
authorize via exactly one branch of the ladder, then resolve the folder
and upload. -/
def main (w : World) (raw : Args) : MainResult :=
  match parse_args raw with
  | Except.error msg => { events := [], outcome := MainOutcome.error msg }
  | Except.ok args =>
      match (mainAuthStep w args).2 with
      | Except.error msg =>
          { events := (mainAuthStep w args).1, outcome := MainOutcome.error msg }
      | Except.ok _gauth => afterAuth w args (mainAuthStep w args).1

/-- `os.path.join(cwd, name)` for a relative `name` under a directory path
without a trailing separator. -/
def joinPath (a b : String) : String := a ++ "/" ++ b

/-- Observable effects of `get_credentials` (gdrive_get_credentials.py:32-47):
the extra flow parameters set before the consent flow, the path the
credential bundle is saved to, and the final console message. -/
structure BootstrapResult where
  flow_params : List (String × String)
  saved_to : String
  printed : String
deriving Repr, DecidableEq

/-- `get_credentials` (gdrive_get_credentials.py:32-47): force offline
access and the consent screen, run the flow, save the bundle to
`output_file`, defaulting to `os.path.join(os.getcwd(), "credentials.json")`
when `output_file` is falsy, and print the save location.  `cwd` models
`os.getcwd()`; `output_file` is the `--output-file` argument (possibly
`None`). -/
def get_credentials (cwd : String) (client_secret : String) (output_file : Option String) :
    BootstrapResult :=
  let out := if truthy output_file then output_file.getD "" else joinPath cwd "credentials.json"
  { flow_params := [("access_type", "offline"), ("approval_prompt", "force")]
    saved_to := out
    printed := "Credentials file saved to " ++ out }


/-! Concrete environments and argument vectors used by the witnesses. -/

/-- A Drive whose root listing contains one folder `Reports` with id `F123`. -/
def wFound : World :=
  { load := fun _ => { credentials := some { token := "tok" }, access_token_expired := false }
    svcCred := fun _ => { token := "svc" }
    listing := fun _ => Except.ok [{ title := "Reports", id := "F123" }] }

/-- A Drive whose root listing is empty. -/
def wEmpty : World :=
  { load := fun _ => { credentials := some { token := "tok" }, access_token_expired := false }
    svcCred := fun _ => { token := "svc" }
    listing := fun _ => Except.ok [] }

/-- A Drive whose listing call fails with the parent-not-found message. -/
def wErrNotFound : World :=
  { load := fun _ => { credentials := some { token := "tok" }, access_token_expired := false }
    svcCred := fun _ => { token := "svc" }
    listing := fun _ => Except.error { message := "File not found: " } }

/-- A credential load yielding an expired token. -/
def loadExpired : String → GAuthLoad :=
  fun _ => { credentials := some { token := "t" }, access_token_expired := true }

/-- Invocation with only `--credentials` and `--file`. -/
def credArgs : Args :=
  { credentials := some "credentials.json", service_account_key := none, file := "report.pdf"
    name := none, directory_name := none, directory_id := none }

/-- Invocation with `--credentials` and a `--directory-name`. -/
def credNameArgs : Args :=
  { credentials := some "credentials.json", service_account_key := none, file := "report.pdf"
    name := none, directory_name := some "Missing", directory_id := none }

/-- Invocation supplying both a directory name and a directory id. -/
def bothDirArgs : Args :=
  { credentials := some "credentials.json", service_account_key := none, file := "report.pdf"
    name := some "out.pdf", directory_name := some "Reports", directory_id := some "D1" }

/-- Invocation supplying neither auth source. -/
def noAuthArgs : Args :=
  { credentials := none, service_account_key := none, file := "report.pdf"
    name := none, directory_name := none, directory_id := none }

/-- Invocation supplying both auth sources. -/
def bothAuthArgs : Args :=
  { credentials := some "cred.json", service_account_key := some "key.json", file := "a.txt"
    name := none, directory_name := none, directory_id := none }

/-! Helper lemmas. -/

/-- The title-match loop returns the id of the first entry whose title
equals the target name. -/
theorem findFolder_eq_find (l : List DriveFile) (name : String) :
    findFolder l name = (l.find? fun f => f.title == name).map DriveFile.id := by
  induction l with
  | nil => rfl
  | cons f rest ih =>
      by_cases h : f.title == name
      · simp [findFolder, List.find?, h]
      · simp only [findFolder, List.find?, h, Bool.false_eq_true, if_false]
        exact ih

/-- A successful `parse_args` returns its input unchanged and guarantees
that at least one auth source is truthy. -/
theorem parse_ok_auth (raw args : Args) (h : parse_args raw = Except.ok args) :
    args = raw ∧
      (truthy raw.credentials = true ∨ truthy raw.service_account_key = true) := by
  unfold parse_args at h
  split at h
  · exact absurd h (by simp)
  · next hcond =>
      refine ⟨(Except.ok.injEq _ _ ▸ h).symm, ?_⟩
      rcases Bool.and_eq_false_iff.mp (Bool.not_eq_true _ ▸ hcond) with hc | hs
      · exact Or.inl (by simpa using hc)
      · exact Or.inr (by simpa using hs)

/-- `afterAuth` only appends listing and upload events to the trace it is
given. -/
theorem afterAuth_events_eq (w : World) (args : Args) (evs : List Event) :
    ∃ extra : List Event, (afterAuth w args evs).events = evs ++ extra ∧
      ∀ e ∈ extra, (∃ q, e = Event.listing q) ∨ (∃ u, e = Event.uploadFile u) := by
  unfold afterAuth
  split
  · exact ⟨_, rfl, by simp⟩
  · split
    · dsimp only [get_folder_id_by_name]
      split
      · exact ⟨_, rfl, by simp⟩
      · exact ⟨_, rfl, by simp⟩
      · split
        · rename_i r heq h
          exact ⟨[Event.listing (listQuery "root"),
                  Event.uploadFile (upload args.file r args.name)], by simp, by simp⟩
        · exact ⟨_, rfl, by simp⟩
    · exact ⟨_, rfl, by simp⟩

/-! Claim theorems. -/

/-- C3: during folder-name resolution, a remote HTTP error from the
listing call is classified: when its parsed message is exactly
`File not found: ` the message (followed by the folder name) is printed
and the process exits with status 1; any other remote error is re-raised
unchanged. -/
theorem lookup_error_classified
    (listing : String → Except HttpError (List DriveFile))
    (parent name : String) (err : HttpError)
    (h : listing (listQuery parent) = Except.error err) :
    (err.message = "File not found: " →
      (get_folder_id_by_name listing parent name).outcome
        = LookupOutcome.exitProc 1 (err.message ++ name)) ∧
    (err.message ≠ "File not found: " →
      (get_folder_id_by_name listing parent name).outcome
        = LookupOutcome.reraise err) := by
  constructor <;> intro hm <;> simp [get_folder_id_by_name, h, hm]

/-- Witness for `lookup_error_classified` on a concrete erroring Drive. -/
theorem lookup_error_classified_witness :
    wErrNotFound.listing (listQuery "root")
        = Except.error { message := "File not found: " } ∧
    (get_folder_id_by_name wErrNotFound.listing "root" "Reports").outcome
        = LookupOutcome.exitProc 1 ("File not found: " ++ "Reports") :=
  ⟨rfl, (lookup_error_classified wErrNotFound.listing "root" "Reports"
          { message := "File not found: " } rfl).1 rfl⟩

/-- C7: the folder resolver issues exactly one listing query — the parent
id in single quotes followed by ` in parents and trashed=false`, i.e.
filtered to non-trashed children of the given parent — and on a successful listing
returns the id of the first entry whose title is exactly the target name,
or `none` when no entry matches. -/
theorem lookup_single_query_first_match
    (listing : String → Except HttpError (List DriveFile))
    (parent name : String) :
    (get_folder_id_by_name listing parent name).queries
      = ["\x27" ++ parent ++ "\x27 in parents and trashed=false"] ∧
    ∀ fl, listing (listQuery parent) = Except.ok fl →
      (get_folder_id_by_name listing parent name).outcome
        = LookupOutcome.ok ((fl.find? fun f => f.title == name).map DriveFile.id) := by
  refine ⟨rfl, fun fl h => ?_⟩
  simp [get_folder_id_by_name, h, findFolder_eq_find]

/-- Witness for `lookup_single_query_first_match` on a concrete Drive. -/
theorem lookup_single_query_first_match_witness :
    wFound.listing (listQuery "root")
        = Except.ok [{ title := "Reports", id := "F123" }] ∧
    (get_folder_id_by_name wFound.listing "root" "Reports").outcome
        = LookupOutcome.ok
            ((([{ title := "Reports", id := "F123" }] : List DriveFile).find?
                fun f => f.title == "Reports").map DriveFile.id) :=
  ⟨rfl, (lookup_single_query_first_match wFound.listing "root" "Reports").2
          [{ title := "Reports", id := "F123" }] rfl⟩

/-- C8: the created remote file object carries the given destination name
as its title exactly when a (truthy) destination name was given, carries
the given folder id as its single `drive#fileLink` parent exactly when a
(truthy) folder id was given (no parent otherwise), and the upload always
passes the shared-drive support flag. -/
theorem upload_metadata (f : String) (pid name : Option String) :
    (upload f pid name).supportsTeamDrives = true ∧
    (upload f pid name).content_file = f ∧
    (truthy name = true → (upload f pid name).title = name) ∧
    (truthy name = false → (upload f pid name).title = none) ∧
    (truthy pid = true →
      (upload f pid name).parents = some [("drive#fileLink", pid.getD "")]) ∧
    (truthy pid = false → (upload f pid name).parents = none) := by
  refine ⟨rfl, rfl, ?_, ?_, ?_, ?_⟩ <;> intro h <;> simp [upload, h]

/-- Witness for `upload_metadata` at a concrete name and folder id. -/
theorem upload_metadata_witness :
    (truthy (some "out.pdf") = true ∧ truthy (some "D1") = true) ∧
    (upload "report.pdf" (some "D1") (some "out.pdf")).title = some "out.pdf" ∧
    (upload "report.pdf" (some "D1") (some "out.pdf")).parents
        = some [("drive#fileLink", "D1")] ∧
    (upload "report.pdf" (some "D1") (some "out.pdf")).supportsTeamDrives = true :=
  ⟨⟨rfl, rfl⟩,
   (upload_metadata "report.pdf" (some "D1") (some "out.pdf")).2.2.1 rfl,
   (upload_metadata "report.pdf" (some "D1") (some "out.pdf")).2.2.2.2.1 rfl,
   (upload_metadata "report.pdf" (some "D1") (some "out.pdf")).1⟩

/-- C9: with no (truthy) output path the Bootstrapper saves the credential
bundle to `credentials.json` joined under the current working directory
and prints exactly `Credentials file saved to ` followed by that path;
with an output path supplied the bundle is saved there instead. -/
theorem get_credentials_save_and_message (cwd cs : String) (outf : Option String) :
    (truthy outf = false →
      (get_credentials cwd cs outf).saved_to = joinPath cwd "credentials.json" ∧
      (get_credentials cwd cs outf).printed
        = "Credentials file saved to " ++ joinPath cwd "credentials.json") ∧
    (truthy outf = true →
      (get_credentials cwd cs outf).saved_to = outf.getD "" ∧
      (get_credentials cwd cs outf).printed
        = "Credentials file saved to " ++ outf.getD "") := by
  constructor <;> intro h <;> simp [get_credentials, h]

/-- Witness for `get_credentials_save_and_message` with no output path. -/
theorem get_credentials_save_and_message_witness :
    truthy (none : Option String) = false ∧
    ((get_credentials "/home/user" "secret.json" none).saved_to
        = joinPath "/home/user" "credentials.json" ∧
     (get_credentials "/home/user" "secret.json" none).printed
        = "Credentials file saved to " ++ joinPath "/home/user" "credentials.json") :=
  ⟨rfl, (get_credentials_save_and_message "/home/user" "secret.json" none).1 rfl⟩

/-- The trace of the auth ladder is one of four concrete shapes, matching
which branch is taken. -/
theorem mainAuthStep_shape (w : World) (args : Args) :
    (truthy args.credentials = true ∧
      ((mainAuthStep w args).1 = [Event.loadCredFile (args.credentials.getD "")] ∨
       (mainAuthStep w args).1
          = [Event.loadCredFile (args.credentials.getD ""), Event.refresh] ∨
       (mainAuthStep w args).1
          = [Event.loadCredFile (args.credentials.getD ""), Event.authorize])) ∨
    (truthy args.credentials = false ∧ truthy args.service_account_key = true ∧
      (mainAuthStep w args).1 = [Event.svcAuthorize (args.service_account_key.getD "")]) ∨
    (truthy args.credentials = false ∧ truthy args.service_account_key = false ∧
      (mainAuthStep w args).1 = []) := by
  by_cases hc : truthy args.credentials = true
  · left
    refine ⟨hc, ?_⟩
    simp only [mainAuthStep, authChoice, hc, if_true]
    cases hcred : (w.load (args.credentials.getD "")).credentials with
    | none => simp [auth_with_credentials, hcred]
    | some c =>
        by_cases hexp : (w.load (args.credentials.getD "")).access_token_expired = true
        · simp [auth_with_credentials, hcred, hexp]
        · have hexp2 : (w.load (args.credentials.getD "")).access_token_expired = false := by
            simpa using hexp
          simp [auth_with_credentials, hcred, hexp2]
  · have hc2 : truthy args.credentials = false := by simpa using hc
    by_cases hs : truthy args.service_account_key = true
    · right; left
      refine ⟨hc2, hs, ?_⟩
      simp [mainAuthStep, authChoice, hc2, hs, auth_with_service_account_key]
    · right; right
      have hs2 : truthy args.service_account_key = false := by simpa using hs
      refine ⟨hc2, hs2, ?_⟩
      simp [mainAuthStep, authChoice, hc2, hs2]

/-- The auth ladder performs no listing and no upload call. -/
theorem mainAuthStep_no_listing_upload (w : World) (args : Args) :
    (∀ q, Event.listing q ∉ (mainAuthStep w args).1) ∧
    (∀ u, Event.uploadFile u ∉ (mainAuthStep w args).1) := by
  rcases mainAuthStep_shape w args with ⟨-, h | h | h⟩ | ⟨-, -, h⟩ | ⟨-, -, h⟩ <;>
    rw [h] <;> constructor <;> intro x <;> simp

/-- For a successfully parsed invocation, the run trace is the auth-ladder
trace followed only by listing and upload events. -/
theorem main_events_shape (w : World) (raw : Args)
    (h : parse_args raw = Except.ok raw) :
    ∃ extra : List Event,
      (main w raw).events = (mainAuthStep w raw).1 ++ extra ∧
      ∀ e ∈ extra, (∃ q, e = Event.listing q) ∨ (∃ u, e = Event.uploadFile u) := by
  unfold main
  rw [h]
  dsimp only
  cases hstep : (mainAuthStep w raw).2 with
  | error msg => exact ⟨[], by simp, by simp⟩
  | ok g =>
      obtain ⟨extra, he, hprop⟩ := afterAuth_events_eq w raw (mainAuthStep w raw).1
      exact ⟨extra, he, hprop⟩

/-- C5: when neither `--credentials` nor `--service-account-key` is
supplied, `parse_args` raises the configuration error and the run
performs no authentication, listing, or upload call: the event trace is
empty and the run ends with that error. -/
theorem missing_auth_fails_before_any_call (w : World) (raw : Args)
    (hc : truthy raw.credentials = false) (hs : truthy raw.service_account_key = false) :
    parse_args raw = Except.error
        "Specify at least one way to authorize(--credentials or --service-account-key" ∧
    (main w raw).events = [] ∧
    (main w raw).outcome = MainOutcome.error
        "Specify at least one way to authorize(--credentials or --service-account-key" := by
  have hp : parse_args raw = Except.error
      "Specify at least one way to authorize(--credentials or --service-account-key" := by
    simp [parse_args, hc, hs]
  refine ⟨hp, ?_, ?_⟩ <;> unfold main <;> rw [hp]

/-- Witness for `missing_auth_fails_before_any_call` with no auth flags. -/
theorem missing_auth_fails_before_any_call_witness :
    (truthy noAuthArgs.credentials = false ∧
     truthy noAuthArgs.service_account_key = false) ∧
    (parse_args noAuthArgs = Except.error
        "Specify at least one way to authorize(--credentials or --service-account-key" ∧
     (main wFound noAuthArgs).events = [] ∧
     (main wFound noAuthArgs).outcome = MainOutcome.error
        "Specify at least one way to authorize(--credentials or --service-account-key") :=
  ⟨⟨by decide, by decide⟩,
   missing_auth_fails_before_any_call wFound noAuthArgs (by decide) (by decide)⟩

/-- C10: after a successful `parse_args`, the auth ladder in `main` takes
either the credential-bundle branch or the service-account branch; its
final else branch (the `Actually we cannot get here` raise) is
unreachable. -/
theorem auth_else_branch_unreachable (raw args : Args)
    (h : parse_args raw = Except.ok args) :
    ((∃ p, authChoice args = AuthChoice.credPath p) ∨
     (∃ p, authChoice args = AuthChoice.svcPath p)) ∧
    authChoice args ≠ AuthChoice.unreachable := by
  obtain ⟨rfl, hcs⟩ := parse_ok_auth raw args h
  by_cases hc : truthy args.credentials = true
  · exact ⟨Or.inl ⟨args.credentials.getD "", by simp [authChoice, hc]⟩,
      by simp [authChoice, hc]⟩
  · have hc2 : truthy args.credentials = false := by simpa using hc
    have hs : truthy args.service_account_key = true := by
      rcases hcs with h1 | h1
      · exact absurd h1 (by simp [hc2])
      · exact h1
    exact ⟨Or.inr ⟨args.service_account_key.getD "", by simp [authChoice, hc2, hs]⟩,
      by simp [authChoice, hc2, hs]⟩

/-- Witness for `auth_else_branch_unreachable` at a parsed invocation. -/
theorem auth_else_branch_unreachable_witness :
    parse_args credArgs = Except.ok credArgs ∧
    (((∃ p, authChoice credArgs = AuthChoice.credPath p) ∨
      (∃ p, authChoice credArgs = AuthChoice.svcPath p)) ∧
     authChoice credArgs ≠ AuthChoice.unreachable) :=
  ⟨rfl, auth_else_branch_unreachable credArgs credArgs rfl⟩

/-- C2 counterexample: an invocation supplying both a credentials path
and a service-account-key path is not rejected at validation —
`parse_args` accepts it unchanged and the ladder picks the
credential-bundle branch. -/
theorem both_auth_sources_accepted :
    parse_args bothAuthArgs = Except.ok bothAuthArgs ∧
    authChoice bothAuthArgs = AuthChoice.credPath "cred.json" := ⟨rfl, rfl⟩

/-- C2 (amended): for every successfully parsed invocation, exactly one
authorization method is exercised — the trace of the run contains
credential-bundle events or a service-account authorize, never both;
validation only requires at least one source to be present. -/
theorem exactly_one_auth_method_used (w : World) (raw : Args)
    (h : parse_args raw = Except.ok raw) :
    ((∃ p, Event.loadCredFile p ∈ (main w raw).events) ∧
      ¬ ∃ p, Event.svcAuthorize p ∈ (main w raw).events) ∨
    ((∃ p, Event.svcAuthorize p ∈ (main w raw).events) ∧
      ¬ ∃ p, Event.loadCredFile p ∈ (main w raw).events) := by
  obtain ⟨extra, hev, hextra⟩ := main_events_shape w raw h
  have hnoextra : (∀ p, Event.loadCredFile p ∉ extra) ∧
      ∀ p, Event.svcAuthorize p ∉ extra := by
    constructor <;> intro p hp <;>
      rcases hextra _ hp with ⟨q, hq⟩ | ⟨u, hu⟩ <;> simp_all
  rcases mainAuthStep_shape w raw with ⟨hc, hauth⟩ | ⟨hc, hs, hauth⟩ | ⟨hc, hs, hauth⟩
  · left
    constructor
    · refine ⟨raw.credentials.getD "", ?_⟩
      rw [hev]
      rcases hauth with h1 | h1 | h1 <;> rw [h1] <;> simp
    · rintro ⟨p, hp⟩
      rw [hev] at hp
      rcases List.mem_append.mp hp with hl | hr
      · rcases hauth with h1 | h1 | h1 <;> rw [h1] at hl <;> simp at hl
      · exact hnoextra.2 p hr
  · right
    constructor
    · refine ⟨raw.service_account_key.getD "", ?_⟩
      rw [hev, hauth]
      simp
    · rintro ⟨p, hp⟩
      rw [hev] at hp
      rcases List.mem_append.mp hp with hl | hr
      · rw [hauth] at hl
        simp at hl
      · exact hnoextra.1 p hr
  · rcases (parse_ok_auth raw raw h).2 with h1 | h1
    · exact absurd h1 (by simp [hc])
    · exact absurd h1 (by simp [hs])

/-- Witness for `exactly_one_auth_method_used` at a parsed invocation. -/
theorem exactly_one_auth_method_used_witness :
    parse_args credArgs = Except.ok credArgs ∧
    (((∃ p, Event.loadCredFile p ∈ (main wFound credArgs).events) ∧
       ¬ ∃ p, Event.svcAuthorize p ∈ (main wFound credArgs).events) ∨
     ((∃ p, Event.svcAuthorize p ∈ (main wFound credArgs).events) ∧
       ¬ ∃ p, Event.loadCredFile p ∈ (main wFound credArgs).events)) :=
  ⟨rfl, exactly_one_auth_method_used wFound credArgs rfl⟩

/-- C4: when a (truthy) `--directory-id` is supplied together with a
`--directory-name`, the run performs no listing query (the by-name lookup
is never consulted) and any file created carries the given identifier as
its parent. -/
theorem directory_id_precedence (w : World) (raw : Args)
    (hid : truthy raw.directory_id = true) (hname : truthy raw.directory_name = true) :
    (∀ q, Event.listing q ∉ (main w raw).events) ∧
    (∀ u, Event.uploadFile u ∈ (main w raw).events →
      u.parents = some [("drive#fileLink", raw.directory_id.getD "")]) := by
  cases hpe : parse_args raw with
  | error msg =>
      unfold main
      rw [hpe]
      exact ⟨fun q hq => by simp at hq, fun u hu => by simp at hu⟩
  | ok args =>
      obtain ⟨h1, -⟩ := parse_ok_auth raw args hpe
      subst h1
      unfold main
      rw [hpe]
      dsimp only
      cases hstep : (mainAuthStep w args).2 with
      | error msg =>
          exact ⟨fun q hq => (mainAuthStep_no_listing_upload w args).1 q hq,
            fun u hu => absurd hu ((mainAuthStep_no_listing_upload w args).2 u)⟩
      | ok g =>
          have hred : afterAuth w args (mainAuthStep w args).1
              = { events := (mainAuthStep w args).1
                    ++ [Event.uploadFile (upload args.file args.directory_id args.name)]
                  outcome := MainOutcome.ok (upload args.file args.directory_id args.name) } := by
            simp [afterAuth, hid]
          rw [hred]
          constructor
          · intro q hq
            rcases List.mem_append.mp hq with hl | hr
            · exact (mainAuthStep_no_listing_upload w args).1 q hl
            · simp at hr
          · intro u hu
            rcases List.mem_append.mp hu with hl | hr
            · exact absurd hl ((mainAuthStep_no_listing_upload w args).2 u)
            · have hu2 : u = upload args.file args.directory_id args.name := by simpa using hr
              rw [hu2]
              simp [upload, hid]

/-- Witness for `directory_id_precedence` with both directory flags. -/
theorem directory_id_precedence_witness :
    (truthy bothDirArgs.directory_id = true ∧ truthy bothDirArgs.directory_name = true) ∧
    ((∀ q, Event.listing q ∉ (main wFound bothDirArgs).events) ∧
     (∀ u, Event.uploadFile u ∈ (main wFound bothDirArgs).events →
        u.parents = some [("drive#fileLink", bothDirArgs.directory_id.getD "")])) :=
  ⟨⟨by decide, by decide⟩, directory_id_precedence wFound bothDirArgs (by decide) (by decide)⟩

/-- C1: when no (truthy) folder id is given, a folder name is given, and
the by-name lookup returns no identifier, the run raises an error and no
upload (file creation) event ever occurs. -/
theorem folder_name_unresolved_aborts (w : World) (raw : Args)
    (hid : truthy raw.directory_id = false)
    (hname : truthy raw.directory_name = true)
    (hlook : (get_folder_id_by_name w.listing "root" (raw.directory_name.getD "")).outcome
        = LookupOutcome.ok none) :
    (∃ msg, (main w raw).outcome = MainOutcome.error msg) ∧
    ∀ u, Event.uploadFile u ∉ (main w raw).events := by
  cases hpe : parse_args raw with
  | error msg =>
      unfold main
      rw [hpe]
      exact ⟨⟨msg, rfl⟩, fun u hu => by simp at hu⟩
  | ok args =>
      obtain ⟨h1, -⟩ := parse_ok_auth raw args hpe
      subst h1
      unfold main
      rw [hpe]
      dsimp only
      cases hstep : (mainAuthStep w args).2 with
      | error msg =>
          exact ⟨⟨msg, rfl⟩, fun u hu => absurd hu ((mainAuthStep_no_listing_upload w args).2 u)⟩
      | ok g =>
          have hq : (get_folder_id_by_name w.listing "root"
              (args.directory_name.getD "")).queries = [listQuery "root"] := rfl
          have htn : truthy (none : Option String) = false := rfl
          have hred : afterAuth w args (mainAuthStep w args).1
              = { events := (mainAuthStep w args).1 ++ [Event.listing (listQuery "root")]
                  outcome := MainOutcome.error
                    ("Cannot find parent directory " ++ args.directory_name.getD "") } := by
            simp [afterAuth, hid, hname, hq, hlook, htn]
          rw [hred]
          refine ⟨⟨_, rfl⟩, fun u hu => ?_⟩
          rcases List.mem_append.mp hu with hl | hr
          · exact (mainAuthStep_no_listing_upload w args).2 u hl
          · simp at hr

/-- Witness for `folder_name_unresolved_aborts` on an empty Drive. -/
theorem folder_name_unresolved_aborts_witness :
    (truthy credNameArgs.directory_id = false ∧
     truthy credNameArgs.directory_name = true ∧
     (get_folder_id_by_name wEmpty.listing "root"
        (credNameArgs.directory_name.getD "")).outcome = LookupOutcome.ok none) ∧
    ((∃ msg, (main wEmpty credNameArgs).outcome = MainOutcome.error msg) ∧
     ∀ u, Event.uploadFile u ∉ (main wEmpty credNameArgs).events) :=
  ⟨⟨by decide, by decide, by decide⟩,
   folder_name_unresolved_aborts wEmpty credNameArgs (by decide) (by decide) (by decide)⟩

/-- C6: `auth_with_credentials` raises when the loaded bundle has no
credentials; with an expired token it performs exactly one refresh and no
direct authorize; with an unexpired token it performs exactly one direct
authorize and no refresh; in both non-error cases it returns the loaded
session. -/
theorem auth_with_credentials_branches (load : String → GAuthLoad) (cf : String) :
    ((load cf).credentials = none →
      auth_with_credentials load cf
        = ([Event.loadCredFile cf], Except.error ("Error while loading " ++ cf))) ∧
    (∀ c, (load cf).credentials = some c → (load cf).access_token_expired = true →
      (auth_with_credentials load cf).1.count Event.refresh = 1 ∧
      Event.authorize ∉ (auth_with_credentials load cf).1 ∧
      (auth_with_credentials load cf).2 = Except.ok (load cf)) ∧
    (∀ c, (load cf).credentials = some c → (load cf).access_token_expired = false →
      (auth_with_credentials load cf).1.count Event.authorize = 1 ∧
      Event.refresh ∉ (auth_with_credentials load cf).1 ∧
      (auth_with_credentials load cf).2 = Except.ok (load cf)) := by
  refine ⟨fun h => by simp [auth_with_credentials, h],
    fun c hc he => ?_, fun c hc he => ?_⟩ <;>
      simp [auth_with_credentials, hc, he, List.count_cons, List.count_nil, beq_iff_eq]

/-- Witness for `auth_with_credentials_branches` on an expired token. -/
theorem auth_with_credentials_branches_witness :
    ((loadExpired "credentials.json").credentials = some { token := "t" } ∧
     (loadExpired "credentials.json").access_token_expired = true) ∧
    ((auth_with_credentials loadExpired "credentials.json").1.count Event.refresh = 1 ∧
     Event.authorize ∉ (auth_with_credentials loadExpired "credentials.json").1 ∧
     (auth_with_credentials loadExpired "credentials.json").2
        = Except.ok (loadExpired "credentials.json")) :=
  ⟨⟨rfl, rfl⟩,
   (auth_with_credentials_branches loadExpired "credentials.json").2.1
     { token := "t" } rfl rfl⟩

end GDrive
